import Mathlib

/-!
Verification of the resilient data-acquisition layer of the
`poker-online-analyze` frontend (`frontend/src/App.tsx` and
`frontend/src/services/firebaseService.ts`).

The TypeScript source is shallowly embedded: React state and
`localStorage` become an explicit `AppState` record, network calls become
`Except`-valued parameters (`.ok` for a resolved promise, `.error` for a
rejected one), and `try`/`catch` becomes pattern matching on those
`Except` values.  Timestamps (`Date.now()`) are naturals in milliseconds;
JavaScript's `now - ts` comparison against a positive threshold agrees
with truncated `Nat` subtraction on every input.
-/

/-- One row of the ranking table (`interface Site` in `App.tsx`).
Share percentages are exact rationals (the JS floats never overflow or
divide by zero on the guarded paths, which is what the claims are about). -/
structure Site where
  site_name : String
  category : String
  players_online : Nat
  cash_players : Nat
  peak_24h : Nat
  seven_day_avg : Nat
  last_updated : Option String := none
  rank : Option Nat := none
  players_share : Option ℚ := none
  cash_share : Option ℚ := none
deriving DecidableEq, Repr

/-- One entry of `daily_data` (`interface AllSitesData` in `App.tsx`). -/
structure DailyRow where
  date : String
  players_online : Nat
  cash_players : Nat
  peak_24h : Nat
  seven_day_avg : Nat
deriving DecidableEq, Repr

/-- Per-site series (`interface AllSitesData` in `App.tsx`). -/
structure SiteSeries where
  current_stats : Site
  daily_data : List DailyRow
deriving DecidableEq, Repr

/-- Chart payload (`interface AllSitesData` in `App.tsx`); the keyed
object becomes an association list. -/
structure AllSitesData where
  total_sites : Nat
  data : List (String × SiteSeries)
  days : Nat
deriving DecidableEq, Repr

/-- The spec's provenance tag (§3 Result Envelope) identifying which
branch of `fetchCurrentRanking`'s fallback chain produced the data:
API server = primary, direct Firebase = secondary, `fallbackData` =
cache, hard-coded demo data = staticDefault. -/
inductive Provenance where
  | primary
  | secondary
  | cache
  | staticDefault
deriving DecidableEq, Repr

/-- True on the two fallback tiers (Cache / Default), matching the
spec's `degraded` tag for the corresponding code branches. -/
def Provenance.isDegraded : Provenance → Bool
  | .cache => true
  | .staticDefault => true
  | _ => false

/-- Alert levels of the spec's Alert Emitter contract (§6). -/
inductive AlertLevel where
  | info
  | warning
  | error
  | critical
deriving DecidableEq, Repr

/-- The error classification returned by `getErrorType` in `App.tsx`
(`'ratelimit'` = spec RateLimited, `'network'` = spec Transient,
`'server'` = spec Permanent/other). -/
inductive ErrorType where
  | ratelimit
  | network
  | server
deriving DecidableEq, Repr

/-- Boolean prefix test on character lists (helper for `jsIncludes`). -/
def isPrefixChars : List Char → List Char → Bool
  | [], _ => true
  | _ :: _, [] => false
  | a :: as, b :: bs => a == b && isPrefixChars as bs

/-- Boolean contiguous-substring test on character lists. -/
def containsChars (pat : List Char) : List Char → Bool
  | [] => pat.isEmpty
  | c :: rest => isPrefixChars pat (c :: rest) || containsChars pat rest

/-- JavaScript's `String.prototype.includes`. -/
def jsIncludes (s pat : String) : Bool :=
  containsChars pat.data s.data

/-- Embeds `getErrorType` (`App.tsx` lines 149-159), acting on the error
message string (`error?.message || error?.toString() || ''`). -/
def getErrorType (errorMessage : String) : ErrorType :=
  if jsIncludes errorMessage "429" || jsIncludes errorMessage "Rate limit"
      || jsIncludes errorMessage "quota" then
    .ratelimit
  else if jsIncludes errorMessage "network" || jsIncludes errorMessage "fetch" then
    .network
  else
    .server

/-- The component/browser state touched by the claims: the three
`localStorage` keys (`poker-sites-cache`, `poker-stats-cache`,
`poker-cache-timestamp`) and the React state variables `fallbackData`,
`sites`, `allSitesData`. -/
structure AppState where
  storeSites : Option (List Site) := none
  storeStats : Option AllSitesData := none
  storeTimestamp : Option Nat := none
  fallbackData : Option (List Site) := none
  sites : List Site := []
  allSitesData : Option AllSitesData := none
deriving DecidableEq, Repr

/-- Embeds `cacheData` (`App.tsx` lines 136-146): writes the sites cache and
timestamp always, the stats cache only when `stats` is non-null. -/
def cacheData (sitesArg : List Site) (stats : Option AllSitesData) (now : Nat)
    (st : AppState) : AppState :=
  { st with
    storeSites := some sitesArg
    storeStats := match stats with | some s => some s | none => st.storeStats
    storeTimestamp := some now }

/-- Embeds `loadCachedData` (`App.tsx` lines 96-133): requires all three
`localStorage` keys; an entry older than 15 minutes is removed and
reported as a miss, otherwise `fallbackData`, `sites` and `allSitesData`
are populated from the cache and the load is reported as a hit. -/
def loadCachedData (now : Nat) (st : AppState) : Bool × AppState :=
  match st.storeSites, st.storeStats, st.storeTimestamp with
  | some cachedSites, some cachedStats, some ts =>
    if 15 * 60 * 1000 < now - ts then
      (false, { st with storeSites := none, storeStats := none, storeTimestamp := none })
    else
      (true, { st with
        fallbackData := some cachedSites
        sites := cachedSites
        allSitesData := some cachedStats })
  | _, _, _ => (false, st)

/-- Embeds `isDataStale` (`App.tsx` lines 225-233): stale when no cache
timestamp exists or its age exceeds 10 minutes. -/
def isDataStale (now : Nat) (cacheTimestamp : Option Nat) : Bool :=
  match cacheTimestamp with
  | none => true
  | some ts => decide (10 * 60 * 1000 < now - ts)

/-- Sum of `players_online` (`App.tsx` line 310). -/
def totalPlayers (l : List Site) : Nat :=
  (l.map (·.players_online)).sum

/-- Sum of `cash_players` (`App.tsx` line 311). -/
def totalCashPlayers (l : List Site) : Nat :=
  (l.map (·.cash_players)).sum

/-- The share computation (`App.tsx` lines 313-317): each site gets
`players_share`/`cash_share` set to `value / total * 100` when the total
is positive and to `0` when it is zero. -/
def withShares (l : List Site) : List Site :=
  let tp := totalPlayers l
  let tc := totalCashPlayers l
  l.map fun s =>
    { s with
      players_share := some (if 0 < tp then (s.players_online : ℚ) / (tp : ℚ) * 100 else 0)
      cash_share := some (if 0 < tc then (s.cash_players : ℚ) / (tc : ℚ) * 100 else 0) }

/-- The hard-coded demo payload (`App.tsx` lines 283-302). -/
def demoData : List Site :=
  [ { site_name := "PokerStars", category := "STANDALONE", players_online := 8500,
      cash_players := 3200, peak_24h := 12000, seven_day_avg := 9800, rank := some 1 },
    { site_name := "GGPoker", category := "GG_POKER", players_online := 7200,
      cash_players := 2800, peak_24h := 10500, seven_day_avg := 8100, rank := some 2 } ]

/-- The observable outcome of one `fetchCurrentRanking` invocation:
the sites finally displayed, which network sources were called, the
provenance/degraded tagging of the producing branch, the degraded-data
notifications emitted (the single `console.error` + degraded notice of
the cache branch is a `WARNING`, of the demo branch a `CRITICAL`, per
the spec's Alert Emitter contract), and whether a retry was scheduled. -/
structure FetchResult where
  sites : List Site
  apiCalled : Bool
  fbCalled : Bool
  provenance : Option Provenance
  degraded : Bool
  alerts : List AlertLevel
  retryScheduled : Bool
deriving DecidableEq, Repr

/-- Number of network calls performed by the invocation. -/
def FetchResult.networkCalls (r : FetchResult) : Nat :=
  (if r.apiCalled then 1 else 0) + (if r.fbCalled then 1 else 0)

/-- The early-return result of `fetchCurrentRanking` when the data is
fresh (`App.tsx` lines 237-241): nothing fetched, state untouched. -/
def freshResult (st : AppState) : FetchResult :=
  { sites := st.sites, apiCalled := false, fbCalled := false, provenance := none,
    degraded := false, alerts := [], retryScheduled := false }

/-- Tail of `fetchLogic` (`App.tsx` lines 309-327): compute shares,
publish the result, remember it as `fallbackData`, and cache it. -/
def completeFetch (d : List Site) (p : Provenance) (alerts : List AlertLevel)
    (apiCalled fbCalled : Bool) (now : Nat) (st : AppState) : FetchResult × AppState :=
  let sws := withShares d
  let st1 : AppState := { st with sites := sws, fallbackData := some sws }
  let st2 := cacheData sws st1.allSitesData now st1
  ({ sites := sws, apiCalled := apiCalled, fbCalled := fbCalled, provenance := some p,
     degraded := p.isDegraded, alerts := alerts, retryScheduled := false }, st2)

/-- Embeds `fetchLogic` (`App.tsx` lines 243-328).  Here `api` is the axios call to
the API server, `fb` the `firebaseService.getCurrentRanking()` call;
`.error` is a rejected promise.  Both failing falls back to
`fallbackData` when non-empty and to the demo payload otherwise. -/
def fetchLogicE (api fb : Except String (List Site)) (now : Nat) (st : AppState) :
    Except String (FetchResult × AppState) :=
  match api with
  | .ok d => .ok (completeFetch d .primary [] true false now st)
  | .error _ =>
    match fb with
    | .ok d => .ok (completeFetch d .secondary [] true true now st)
    | .error _ =>
      match st.fallbackData with
      | some l =>
        if 0 < l.length then
          .ok (completeFetch l .cache [.warning] true true now st)
        else
          .ok (completeFetch demoData .staticDefault [.critical] true true now st)
      | none => .ok (completeFetch demoData .staticDefault [.critical] true true now st)

/-- Embeds `fetchCurrentRanking` (`App.tsx` lines 235-354).  The result is an
`Except`: a `.error` would mean an exception escaping to the caller.
The freshness gate (lines 237-241) short-circuits; otherwise
`fetchLogic` runs under the outer `try`/`catch` (lines 330-353), whose
handler schedules a retry on a rate-limit error and falls back to
`fallbackData` (or just records the error) otherwise — it never
rethrows. -/
def fetchCurrentRankingE (force : Bool) (now : Nat)
    (api fb : Except String (List Site)) (st : AppState) :
    Except String (FetchResult × AppState) :=
  if force = false ∧ isDataStale now st.storeTimestamp = false ∧ 0 < st.sites.length then
    .ok (freshResult st, st)
  else
    match fetchLogicE api fb now st with
    | .ok r => .ok r
    | .error e =>
      if getErrorType e = .ratelimit then
        .ok ({ sites := st.sites, apiCalled := true, fbCalled := true, provenance := none,
               degraded := false, alerts := [], retryScheduled := true }, st)
      else
        match st.fallbackData with
        | some l =>
          if 0 < l.length then
            .ok ({ sites := l, apiCalled := true, fbCalled := true,
                   provenance := some .cache, degraded := true, alerts := [],
                   retryScheduled := false }, { st with sites := l })
          else
            .ok ({ sites := st.sites, apiCalled := true, fbCalled := true,
                   provenance := none, degraded := false, alerts := [],
                   retryScheduled := false }, st)
        | none =>
          .ok ({ sites := st.sites, apiCalled := true, fbCalled := true,
                 provenance := none, degraded := false, alerts := [],
                 retryScheduled := false }, st)

/-! ### Retry controller (`retryWithDelay`, `App.tsx` lines 162-203)

`retryWithDelay` is an asynchronous recursion bounded by
`maxRetries = 3`; `currentRetryCount` only ever grows towards that
bound.  The embedding recurses structurally on the remaining budget
`maxRetries - currentRetryCount` (`retryGo`'s `fuel`), which is zero
exactly when the source's guard `currentRetryCount < maxRetries`
fails; `retryWithDelay_eq` below re-states the source's own recursion
shape and certifies the encoding. -/

/-- Outcome of one invocation of the retried `retryFunction`
(`fetchLogic`): the promise resolves or rejects with a message. -/
inductive AttemptResult where
  | ok
  | err (msg : String)
deriving DecidableEq, Repr

/-- How a `retryWithDelay` cascade ends: the retried call succeeded, it
failed with a non-rate-limit error (no further retry), or the retry
budget was exhausted. -/
inductive RetryOutcome where
  | success
  | failed (msg : String)
  | maxReached
deriving DecidableEq, Repr

/-- Observable trace of a `retryWithDelay` cascade: the backoff delay
waited before each executed retry, the number of retries executed, and
how the cascade ended. -/
structure RetryTrace where
  delays : List Nat
  retries : Nat
  outcome : RetryOutcome
deriving DecidableEq, Repr

/-- Fuel-indexed body of `retryWithDelay`; `outcomes c` is the result of
the retry attempt scheduled at `currentRetryCount = c`. -/
def retryGo (outcomes : Nat → AttemptResult) : Nat → Nat → RetryTrace
  | _, 0 => { delays := [], retries := 0, outcome := .maxReached }
  | c, fuel + 1 =>
    let delay := 2000 * 2 ^ c
    match outcomes c with
    | .ok => { delays := [delay], retries := 1, outcome := .success }
    | .err m =>
      if getErrorType m = .ratelimit then
        let t := retryGo outcomes (c + 1) fuel
        { delays := delay :: t.delays, retries := t.retries + 1, outcome := t.outcome }
      else
        { delays := [delay], retries := 1, outcome := .failed m }

/-- Embeds `retryWithDelay` (`App.tsx` lines 162-203) started at
`currentRetryCount = c` (the code enters with `c = 0`). -/
def retryWithDelay (outcomes : Nat → AttemptResult) (c : Nat) : RetryTrace :=
  retryGo outcomes c (3 - c)

/-- The embedding satisfies the source's recursion: with
`maxRetries = 3` and `baseDelay = 2000`, a count below the bound waits
`baseDelay * 2 ^ count`, runs the attempt, recurses exactly on a
rate-limit classification, and the bound yields the give-up branch. -/
theorem retryWithDelay_eq (outcomes : Nat → AttemptResult) (c : Nat) :
    retryWithDelay outcomes c =
      if c < 3 then
        match outcomes c with
        | .ok => { delays := [2000 * 2 ^ c], retries := 1, outcome := .success }
        | .err m =>
          if getErrorType m = .ratelimit then
            let t := retryWithDelay outcomes (c + 1)
            { delays := 2000 * 2 ^ c :: t.delays, retries := t.retries + 1,
              outcome := t.outcome }
          else
            { delays := [2000 * 2 ^ c], retries := 1, outcome := .failed m }
      else
        { delays := [], retries := 0, outcome := .maxReached } := by
  by_cases h : c < 3
  · have hf : 3 - c = (3 - (c + 1)) + 1 := by omega
    rw [if_pos h]
    unfold retryWithDelay
    rw [hf]
    rfl
  · have hf : 3 - c = 0 := by omega
    rw [if_neg h]
    unfold retryWithDelay
    rw [hf]
    rfl

/-- The number of retries a cascade executes is bounded by its fuel. -/
theorem retryGo_retries_le (outcomes : Nat → AttemptResult) :
    ∀ fuel c, (retryGo outcomes c fuel).retries ≤ fuel := by
  intro fuel
  induction fuel with
  | zero => intro c; simp [retryGo]
  | succ n ih =>
    intro c
    simp only [retryGo]
    match houtcome : outcomes c with
    | .ok => simp
    | .err m =>
      by_cases hrl : getErrorType m = .ratelimit
      · simpa [hrl] using ih (c + 1)
      · simp [hrl]

/-- Each executed retry is preceded by the exponential backoff delay
`2000 * 2 ^ attempt`, attempts counted from the starting count. -/
theorem retryGo_delays (outcomes : Nat → AttemptResult) :
    ∀ fuel c, (retryGo outcomes c fuel).delays =
      (List.range (retryGo outcomes c fuel).retries).map (fun i => 2000 * 2 ^ (c + i)) := by
  intro fuel
  induction fuel with
  | zero => intro c; simp [retryGo]
  | succ n ih =>
    intro c
    simp only [retryGo]
    match houtcome : outcomes c with
    | .ok => simp [List.range_succ]
    | .err m =>
      by_cases hrl : getErrorType m = .ratelimit
      · simp only [hrl, if_pos]
        rw [List.range_succ_eq_map, List.map_cons, List.map_map]
        refine congrArg₂ _ (by simp) ?_
        rw [ih (c + 1)]
        refine List.map_congr_left fun i _ => ?_
        have hadd : c + 1 + i = c + (i + 1) := by omega
        simp [Function.comp, hadd]
      · simp [hrl, List.range_succ]

/-- A cascade that starts below the retry bound executes at least one
retry (the already-scheduled attempt runs). -/
theorem retryGo_retries_pos (outcomes : Nat → AttemptResult) (c fuel : Nat) :
    1 ≤ (retryGo outcomes c (fuel + 1)).retries := by
  simp only [retryGo]
  match outcomes c with
  | .ok => simp
  | .err m =>
    by_cases hrl : getErrorType m = .ratelimit
    · simp [hrl]
    · simp [hrl]

/-- Trace of a whole `fetchCurrentRanking` network episode: the initial
`fetchLogic` attempt plus the retries triggered by its `catch`
(`App.tsx` lines 330-353). -/
structure FetchRetryTrace where
  totalAttempts : Nat
  retries : Nat
  delays : List Nat
deriving DecidableEq, Repr

/-- The outer `catch` of `fetchCurrentRanking` (`App.tsx` lines
330-353): a rate-limit classified failure starts
`retryWithDelay(fetchLogic, 0)`; any other failure is not retried. -/
def runFetchWithRetry (initial : AttemptResult) (outcomes : Nat → AttemptResult) :
    FetchRetryTrace :=
  match initial with
  | .ok => { totalAttempts := 1, retries := 0, delays := [] }
  | .err m =>
    if getErrorType m = .ratelimit then
      let t := retryWithDelay outcomes 0
      { totalAttempts := 1 + t.retries, retries := t.retries, delays := t.delays }
    else
      { totalAttempts := 1, retries := 0, delays := [] }

/-! ### Debounced fetch (`debouncedFetch`, `App.tsx` lines 206-222)

Each call clears the previously scheduled timer and schedules the fetch
`delay` ms later; when a timer fires, the fetch runs only if at least
5000 ms have passed since `lastFetchAttempt`, which is then updated.
JavaScript is single-threaded, so a run is fully described by the sorted
list of times at which `debouncedFetch` is called. -/

/-- The times at which scheduled timers actually fire, for calls to
`debouncedFetch` at the ascending times `requests`: a call's timer
survives exactly when it is due no later than the next call (which would
otherwise `clearTimeout` it); the last call's timer always fires. -/
def fireTimes : List Nat → Nat → List Nat
  | [], _ => []
  | [r], d => [r + d]
  | r1 :: r2 :: rs, d =>
    if r1 + d ≤ r2 then (r1 + d) :: fireTimes (r2 :: rs) d
    else fireTimes (r2 :: rs) d

/-- The minimum-spacing guard inside the timer callback (`App.tsx`
lines 212-220): a firing within 5000 ms of `lastFetchAttempt` is
skipped; otherwise the fetch runs and `lastFetchAttempt` is updated. -/
def runFires : List Nat → Nat → List Nat
  | [], _ => []
  | t :: ts, last =>
    if t - last < 5000 then runFires ts last
    else t :: runFires ts t

/-- The times at which `debouncedFetch` actually invokes its
`fetchFunction`, given the call times, the debounce delay, and the
current `lastFetchAttempt`. -/
def debouncedFetchRuns (requests : List Nat) (delay lastFetchAttempt : Nat) : List Nat :=
  runFires (fireTimes requests delay) lastFetchAttempt

/-- Total network calls to the source in the scenario where one fetch is
already in flight (started at `inflightStart`, which set
`lastFetchAttempt`) and further `debouncedFetch` requests arrive: the
in-flight call plus every additional `fetchFunction` invocation. -/
def totalSourceCalls (inflightStart : Nat) (requests : List Nat) (delay : Nat) : Nat :=
  1 + (debouncedFetchRuns requests delay inflightStart).length

/-! ### `FirebaseRestClient.getCurrentRanking` (`firebaseService.ts` lines 72-81) -/

/-- The sort comparator `(a, b) => b.players_online - a.players_online`:
`a` may stay before `b` exactly when `b.players_online ≤ a.players_online`. -/
def siteLe (a b : Site) : Bool :=
  decide (b.players_online ≤ a.players_online)

/-- Assign ranks `n+1, n+2, ...` down a list
(`.map((site, index) => ({ ...site, rank: index + 1 }))`, started at `n = 0`). -/
def rankFrom : Nat → List Site → List Site
  | _, [] => []
  | n, s :: ss => { s with rank := some (n + 1) } :: rankFrom (n + 1) ss

/-- The ranking step of `FirebaseRestClient.getCurrentRanking`
(`firebaseService.ts` lines 72-81): sort by `players_online` descending
(stable, as JS `Array.prototype.sort`), then number the result 1..N. -/
def sortAndRank (sites : List Site) : List Site :=
  rankFrom 0 (sites.mergeSort siteLe)

/-! ### `DataService` (`firebaseService.ts`, static-JSON service) -/

/-- One element of the `data.sites` array of `latest.json`, which may
carry its own `collected_at` timestamp. -/
structure LatestSite where
  site : Site
  collected_at : Option String
deriving DecidableEq, Repr

/-- The parsed response of `fetch('/poker-online-analyze/data/latest.json')`:
`respOk` is `response.ok`; `sites`/`timestamp` are the (possibly absent)
fields of the JSON body. -/
structure LatestPayload where
  respOk : Bool
  sites : Option (List LatestSite)
  timestamp : Option String
deriving DecidableEq, Repr

/-- JavaScript `a || b` on optional strings (`""` is falsy). -/
def jsOrString (a b : Option String) : Option String :=
  match a with
  | some s => if s = "" then b else some s
  | none => b

/-- Embeds `DataService.getCurrentRanking` (`firebaseService.ts` lines
158-184): a failed response or a thrown error yields `[]`; otherwise the
`sites` array (defaulting to `[]`) with `last_updated` filled from
`site.collected_at || data.timestamp`. A `.error` result would be an
exception escaping to the caller. -/
def dataServiceGetCurrentRankingE (resp : Except String LatestPayload) :
    Except String (List Site) :=
  match resp with
  | .error _ => .ok []
  | .ok p =>
    if p.respOk then
      .ok ((p.sites.getD []).map fun s =>
        { s.site with last_updated := jsOrString s.collected_at p.timestamp })
    else
      .ok []

/-- Embeds `DataService.getTopSitesByCategory` (`firebaseService.ts` lines
240-253): `fetchResult` is the awaited `this.getCurrentRanking()`
(`.error` = that call threw); `'ALL'` keeps the whole ranking, any other
category filters by equality; the first `limit` survivors are returned
and any error yields `[]`. -/
def getTopSitesByCategory (fetchResult : Except String (List Site))
    (category : String) (limit : Nat) : List Site :=
  match fetchResult with
  | .error _ => []
  | .ok allSites =>
    (if category = "ALL" then allSites
     else allSites.filter fun s => s.category = category).take limit

/-! ### Helper lemmas -/

/-- Every branch of `fetchLogic` catches its errors and resolves. -/
theorem fetchLogicE_isOk (api fb : Except String (List Site)) (now : Nat) (st : AppState) :
    ∃ r, fetchLogicE api fb now st = .ok r := by
  unfold fetchLogicE
  cases api with
  | ok d => exact ⟨_, rfl⟩
  | error e1 =>
    cases fb with
    | ok d => exact ⟨_, rfl⟩
    | error e2 =>
      rcases hopt : st.fallbackData with _ | l
      · exact ⟨_, rfl⟩
      · by_cases hl : 0 < l.length
        · exact ⟨_, by dsimp only; rw [if_pos hl]⟩
        · exact ⟨_, by dsimp only; rw [if_neg hl]⟩

/-- When the freshness gate does not short-circuit, `fetchCurrentRanking`
is exactly `fetchLogic` (the outer `catch` is unreachable because
`fetchLogic` resolves on every input). -/
theorem fetch_not_fresh {force : Bool} {now : Nat} {api fb : Except String (List Site)}
    {st : AppState}
    (hng : ¬(force = false ∧ isDataStale now st.storeTimestamp = false ∧ 0 < st.sites.length)) :
    fetchCurrentRankingE force now api fb st = fetchLogicE api fb now st := by
  unfold fetchCurrentRankingE
  rw [if_neg hng]
  obtain ⟨r, hr⟩ := fetchLogicE_isOk api fb now st
  rw [hr]

/-- Both network sources rejected and a non-empty `fallbackData`
present: `fetchLogic` serves the cached value (with recomputed shares),
tagged as the degraded Cache tier with a single WARNING. -/
theorem fetchLogicE_cache {ea eb : String} {now : Nat} {st : AppState} {l : List Site}
    (hfb : st.fallbackData = some l) (hl : 0 < l.length) :
    fetchLogicE (.error ea) (.error eb) now st =
      .ok (completeFetch l .cache [.warning] true true now st) := by
  unfold fetchLogicE
  rw [hfb]
  dsimp only
  rw [if_pos hl]

/-- Both network sources rejected and no usable `fallbackData`:
`fetchLogic` serves the demo payload, tagged as the degraded Default
tier with a single CRITICAL. -/
theorem fetchLogicE_default {ea eb : String} {now : Nat} {st : AppState}
    (hfb : st.fallbackData = none ∨ st.fallbackData = some []) :
    fetchLogicE (.error ea) (.error eb) now st =
      .ok (completeFetch demoData .staticDefault [.critical] true true now st) := by
  unfold fetchLogicE
  rcases hfb with h | h
  · rw [h]
  · rw [h]
    dsimp only
    rw [if_neg (by decide)]

/-- End-to-end cache-fallback shape of `fetchCurrentRanking` when both
sources fail and the freshness gate is open. -/
theorem fetch_cache_result {force : Bool} {now : Nat} {ea eb : String} {st : AppState}
    {l : List Site} (hfb : st.fallbackData = some l) (hl : 0 < l.length)
    (hng : ¬(force = false ∧ isDataStale now st.storeTimestamp = false ∧ 0 < st.sites.length)) :
    fetchCurrentRankingE force now (.error ea) (.error eb) st =
      .ok ({ sites := withShares l, apiCalled := true, fbCalled := true,
             provenance := some .cache, degraded := true, alerts := [.warning],
             retryScheduled := false },
           (completeFetch l .cache [.warning] true true now st).2) := by
  rw [fetch_not_fresh hng, fetchLogicE_cache hfb hl]
  rfl

/-- End-to-end default-fallback shape of `fetchCurrentRanking` when both
sources fail, no cached entry exists, and the freshness gate is open. -/
theorem fetch_default_result {force : Bool} {now : Nat} {ea eb : String} {st : AppState}
    (hfb : st.fallbackData = none ∨ st.fallbackData = some [])
    (hng : ¬(force = false ∧ isDataStale now st.storeTimestamp = false ∧ 0 < st.sites.length)) :
    fetchCurrentRankingE force now (.error ea) (.error eb) st =
      .ok ({ sites := withShares demoData, apiCalled := true, fbCalled := true,
             provenance := some .staticDefault, degraded := true, alerts := [.critical],
             retryScheduled := false },
           (completeFetch demoData .staticDefault [.critical] true true now st).2) := by
  rw [fetch_not_fresh hng, fetchLogicE_default hfb]
  rfl

/-! ### Claims -/

/-- C1: a non-forced fetch with a present cache timestamp of age at most
the 10-minute stale threshold and a non-empty loaded site list returns
immediately: no call to the API server or Firebase, displayed data and
state unchanged. -/
theorem fetch_fresh_no_network (now ts : Nat) (api fb : Except String (List Site))
    (st : AppState) (hts : st.storeTimestamp = some ts)
    (hage : now - ts ≤ 10 * 60 * 1000) (hsites : st.sites ≠ []) :
    fetchCurrentRankingE false now api fb st = .ok (freshResult st, st)
    ∧ (freshResult st).networkCalls = 0
    ∧ (freshResult st).sites = st.sites := by
  have hstale : isDataStale now st.storeTimestamp = false := by
    rw [hts]
    simp only [isDataStale, decide_eq_false_iff_not]
    omega
  have hlen : 0 < st.sites.length := List.length_pos.mpr hsites
  refine ⟨?_, rfl, rfl⟩
  unfold fetchCurrentRankingE
  rw [if_pos ⟨rfl, hstale, hlen⟩]

/-- Concrete instance of `fetch_fresh_no_network`. -/
def freshStateW : AppState :=
  { storeTimestamp := some 0, sites := demoData }

/-- Witness for C1: at `now = 1000` ms with a timestamp written at `0`,
the fetch returns the cached sites without any network call. -/
theorem fetch_fresh_no_network_witness :
    fetchCurrentRankingE false 1000 (.error "api down") (.error "fb down") freshStateW
      = .ok (freshResult freshStateW, freshStateW)
    ∧ (freshResult freshStateW).networkCalls = 0 := by
  have h := fetch_fresh_no_network 1000 0 (.error "api down") (.error "fb down")
    freshStateW rfl (by decide) (by decide)
  exact ⟨h.1, h.2.1⟩

/-- C3: if both network sources fail and a non-empty cached value is
held, the fetch resolves to that cached value (with recomputed shares),
tagged degraded with Cache provenance, and exactly one WARNING-level
degraded-data notification is emitted. -/
theorem fetch_all_fail_returns_cache (force : Bool) (now : Nat) (ea eb : String)
    (st : AppState) (l : List Site) (hfb : st.fallbackData = some l) (hl : l ≠ [])
    (hgate : force = true ∨ isDataStale now st.storeTimestamp = true ∨ st.sites = []) :
    ∃ r st2, fetchCurrentRankingE force now (.error ea) (.error eb) st = .ok (r, st2)
      ∧ r.sites = withShares l
      ∧ r.provenance = some .cache
      ∧ r.degraded = true
      ∧ r.alerts.count .warning = 1
      ∧ r.alerts.length = 1 := by
  have hng : ¬(force = false ∧ isDataStale now st.storeTimestamp = false
      ∧ 0 < st.sites.length) := by
    rcases hgate with h | h | h <;> simp [h]
  refine ⟨_, _, fetch_cache_result hfb (List.length_pos.mpr hl) hng, rfl, rfl, rfl, ?_, rfl⟩
  simp

/-- Concrete state for the C3 witness: empty displayed list, cached
fallback holding the demo sites. -/
def cacheStateW : AppState :=
  { fallbackData := some demoData, sites := [] }

/-- Witness for C3: with both sources failing against `cacheStateW`, the
cached sites come back tagged Cache/degraded with one WARNING. -/
theorem fetch_all_fail_returns_cache_witness :
    ∃ r st2, fetchCurrentRankingE true 0 (.error "api down") (.error "fb down") cacheStateW
      = .ok (r, st2)
      ∧ r.sites = withShares demoData
      ∧ r.provenance = some .cache
      ∧ r.degraded = true
      ∧ r.alerts.count .warning = 1
      ∧ r.alerts.length = 1 :=
  fetch_all_fail_returns_cache true 0 "api down" "fb down" cacheStateW demoData rfl
    (by decide) (Or.inl rfl)

/-- C4: if both network sources fail and no cached value exists, the
fetch resolves to the hard-coded demo payload, tagged degraded with
Default provenance, and exactly one CRITICAL-level notification is
emitted. -/
theorem fetch_all_fail_returns_default (force : Bool) (now : Nat) (ea eb : String)
    (st : AppState) (hfb : st.fallbackData = none ∨ st.fallbackData = some [])
    (hgate : force = true ∨ isDataStale now st.storeTimestamp = true ∨ st.sites = []) :
    ∃ r st2, fetchCurrentRankingE force now (.error ea) (.error eb) st = .ok (r, st2)
      ∧ r.sites = withShares demoData
      ∧ r.provenance = some .staticDefault
      ∧ r.degraded = true
      ∧ r.alerts.count .critical = 1
      ∧ r.alerts.length = 1 := by
  have hng : ¬(force = false ∧ isDataStale now st.storeTimestamp = false
      ∧ 0 < st.sites.length) := by
    rcases hgate with h | h | h <;> simp [h]
  refine ⟨_, _, fetch_default_result hfb hng, rfl, rfl, rfl, ?_, rfl⟩
  simp

/-- Witness for C4: both sources failing against the pristine initial
state yields the demo payload tagged Default/degraded with one CRITICAL. -/
theorem fetch_all_fail_returns_default_witness :
    ∃ r st2, fetchCurrentRankingE false 0 (.error "api down") (.error "fb down") {}
      = .ok (r, st2)
      ∧ r.sites = withShares demoData
      ∧ r.provenance = some .staticDefault
      ∧ r.degraded = true
      ∧ r.alerts.count .critical = 1
      ∧ r.alerts.length = 1 :=
  fetch_all_fail_returns_default false 0 "api down" "fb down" {} (Or.inl rfl)
    (Or.inr (Or.inl rfl))

/-- C6: the consumer-facing fetch never propagates an exception: every
combination of source outcomes resolves to a value, both for the App's
`fetchCurrentRanking` and for `DataService.getCurrentRanking`. -/
theorem fetch_never_throws :
    (∀ force now api fb st, ∃ r, fetchCurrentRankingE force now api fb st = .ok r)
    ∧ (∀ resp, ∃ l, dataServiceGetCurrentRankingE resp = .ok l) := by
  constructor
  · intro force now api fb st
    unfold fetchCurrentRankingE
    by_cases hfresh : force = false ∧ isDataStale now st.storeTimestamp = false
        ∧ 0 < st.sites.length
    · rw [if_pos hfresh]
      exact ⟨_, rfl⟩
    · rw [if_neg hfresh]
      obtain ⟨r, hr⟩ := fetchLogicE_isOk api fb now st
      rw [hr]
      exact ⟨r, rfl⟩
  · intro resp
    unfold dataServiceGetCurrentRankingE
    cases resp with
    | error e => exact ⟨[], rfl⟩
    | ok p =>
      dsimp only
      by_cases hok : p.respOk = true
      · rw [if_pos hok]
        exact ⟨_, rfl⟩
      · rw [if_neg hok]
        exact ⟨[], rfl⟩

/-- C2 (amended): a failed initial fetch is retried exactly when it is
classified `'ratelimit'`; a non-rate-limit failure (including `'network'`
= Transient) is never retried, and a non-rate-limit failure inside the
cascade stops it after the already-scheduled attempt.  Every executed
retry number `i` (from 0) is preceded by a `2000 * 2 ^ i` ms backoff,
and at most 3 retries (4 total attempts) ever run. -/
theorem retry_policy (initial : AttemptResult) (outcomes : Nat → AttemptResult) :
    (runFetchWithRetry initial outcomes).totalAttempts ≤ 4
    ∧ (∀ m, initial = .err m → getErrorType m ≠ .ratelimit →
        (runFetchWithRetry initial outcomes).retries = 0)
    ∧ (∀ m, initial = .err m → getErrorType m = .ratelimit →
        1 ≤ (runFetchWithRetry initial outcomes).retries)
    ∧ (∀ c m, c < 3 → outcomes c = .err m → getErrorType m ≠ .ratelimit →
        (retryWithDelay outcomes c).retries = 1
        ∧ (retryWithDelay outcomes c).outcome = .failed m)
    ∧ (runFetchWithRetry initial outcomes).delays =
        (List.range (runFetchWithRetry initial outcomes).retries).map fun i => 2000 * 2 ^ i := by
  refine ⟨?_, ?_, ?_, ?_, ?_⟩
  · cases initial with
    | ok => simp [runFetchWithRetry]
    | err m =>
      by_cases hrl : getErrorType m = .ratelimit
      · have hle := retryGo_retries_le outcomes 3 0
        unfold runFetchWithRetry
        dsimp only
        rw [if_pos hrl]
        show 1 + (retryWithDelay outcomes 0).retries ≤ 4
        unfold retryWithDelay
        rw [Nat.sub_zero]
        omega
      · unfold runFetchWithRetry
        dsimp only
        rw [if_neg hrl]
        decide
  · intro m him hne
    subst him
    unfold runFetchWithRetry
    dsimp only
    rw [if_neg hne]
  · intro m him hrl
    subst him
    unfold runFetchWithRetry
    dsimp only
    rw [if_pos hrl]
    show 1 ≤ (retryWithDelay outcomes 0).retries
    exact retryGo_retries_pos outcomes 0 2
  · intro c m hc ho hne
    have heq : retryWithDelay outcomes c =
        { delays := [2000 * 2 ^ c], retries := 1, outcome := .failed m } := by
      rw [retryWithDelay_eq outcomes c, if_pos hc, ho]
      dsimp only
      rw [if_neg hne]
    exact ⟨by rw [heq], by rw [heq]⟩
  · cases initial with
    | ok => rfl
    | err m =>
      by_cases hrl : getErrorType m = .ratelimit
      · unfold runFetchWithRetry
        dsimp only
        rw [if_pos hrl]
        show (retryWithDelay outcomes 0).delays =
          (List.range (retryWithDelay outcomes 0).retries).map fun i => 2000 * 2 ^ i
        unfold retryWithDelay
        rw [retryGo_delays outcomes (3 - 0) 0]
        exact List.map_congr_left fun i _ => by rw [Nat.zero_add]
      · unfold runFetchWithRetry
        dsimp only
        rw [if_neg hrl]
        rfl

/-- C2 counterexample: a Transient-classified failure (message containing
`network`, per `getErrorType`) is not retried at all — zero retries, a
single total attempt — contradicting "retries exactly when the failure
is classified RateLimited or Transient". -/
theorem retry_policy_transient_not_retried :
    getErrorType "network timeout" = ErrorType.network
    ∧ (runFetchWithRetry (.err "network timeout") fun _ => .err "network timeout").retries = 0
    ∧ (runFetchWithRetry (.err "network timeout")
        fun _ => .err "network timeout").totalAttempts = 1 := by
  refine ⟨by decide, ?_, ?_⟩ <;> rfl

/-- Witness for `retry_policy`: a 429-classified failure is retried, and
a `'network'` failure inside the cascade stops it with one attempt. -/
theorem retry_policy_witness :
    1 ≤ (runFetchWithRetry (.err "429") fun _ => .err "429").retries
    ∧ (retryWithDelay (fun _ => .err "network down") 0).retries = 1 :=
  ⟨(retry_policy (.err "429") fun _ => .err "429").2.2.1 "429" rfl (by decide),
   ((retry_policy (.err "429") fun _ => .err "network down").2.2.2.1 0 "network down"
      (by decide) rfl (by decide)).1⟩

/-- C5: a durable entry cached at `t0` is a fresh-path hit when read
within the 15-minute TTL, a fresh-path miss when read after the TTL, and
the value nevertheless remains retrievable afterwards through the
degraded fallback path once every network source has failed. -/
theorem durable_cache_hit_miss_fallback (sitesArg : List Site) (stats : AllSitesData)
    (st : AppState) (t0 t1 t2 t3 : Nat) (ea eb : String)
    (hne : sitesArg ≠ [])
    (h1 : t1 - t0 ≤ 15 * 60 * 1000)
    (h2 : 15 * 60 * 1000 < t2 - t0) :
    (loadCachedData t1 (cacheData sitesArg (some stats) t0 st)).1 = true
    ∧ (loadCachedData t2 (loadCachedData t1 (cacheData sitesArg (some stats) t0 st)).2).1 = false
    ∧ ∃ r st4,
        fetchCurrentRankingE false t3 (.error ea) (.error eb)
          (loadCachedData t2 (loadCachedData t1 (cacheData sitesArg (some stats) t0 st)).2).2
          = .ok (r, st4)
        ∧ r.sites = withShares sitesArg
        ∧ r.provenance = some .cache
        ∧ r.degraded = true
        ∧ r.alerts = [.warning] := by
  have hnot1 : ¬ (15 * 60 * 1000 < t1 - t0) := by omega
  have hload1 : loadCachedData t1 (cacheData sitesArg (some stats) t0 st)
      = (true, { st with
          storeSites := some sitesArg
          storeStats := some stats
          storeTimestamp := some t0
          fallbackData := some sitesArg
          sites := sitesArg
          allSitesData := some stats }) := by
    unfold loadCachedData cacheData
    dsimp only
    rw [if_neg hnot1]
  have hload2 : loadCachedData t2 (loadCachedData t1 (cacheData sitesArg (some stats) t0 st)).2
      = (false, { st with
          storeSites := none
          storeStats := none
          storeTimestamp := none
          fallbackData := some sitesArg
          sites := sitesArg
          allSitesData := some stats }) := by
    rw [hload1]
    unfold loadCachedData
    dsimp only
    rw [if_pos h2]
  refine ⟨by rw [hload1], by rw [hload2], ?_⟩
  rw [hload2]
  exact ⟨_, _, fetch_cache_result rfl (List.length_pos.mpr hne) (by simp [isDataStale]),
    rfl, rfl, rfl, rfl⟩

/-- Witness for C5: entry written at `t0 = 0`, hit at `t1 = 1000` ms,
fresh-path miss at `t2 = 1000000` ms (past the 900000 ms TTL), and still
served by the degraded fallback at `t3` after both sources fail. -/
theorem durable_cache_hit_miss_fallback_witness :
    (loadCachedData 1000 (cacheData demoData (some ⟨0, [], 7⟩) 0 {})).1 = true
    ∧ (loadCachedData 1000000
        (loadCachedData 1000 (cacheData demoData (some ⟨0, [], 7⟩) 0 {})).2).1 = false
    ∧ ∃ r st4,
        fetchCurrentRankingE false 1000001 (.error "x") (.error "y")
          (loadCachedData 1000000
            (loadCachedData 1000 (cacheData demoData (some ⟨0, [], 7⟩) 0 {})).2).2
          = .ok (r, st4)
        ∧ r.sites = withShares demoData
        ∧ r.provenance = some .cache
        ∧ r.degraded = true
        ∧ r.alerts = [.warning] :=
  durable_cache_hit_miss_fallback demoData ⟨0, [], 7⟩ {} 0 1000 1000000 1000001 "x" "y"
    (by decide) (by decide) (by decide)

/-- Under a rapid burst (each call lands inside the previous call's
debounce window), every timer except the last is cancelled, so at most
the last call's timer fires. -/
theorem fireTimes_burst (d : Nat) : ∀ requests : List Nat,
    List.Chain' (fun a b => b < a + d) requests →
    fireTimes requests d = (requests.getLast?.map (· + d)).toList := by
  intro requests
  induction requests with
  | nil => intro _; rfl
  | cons r rest ih =>
    intro h
    cases rest with
    | nil => rfl
    | cons r2 rs =>
      obtain ⟨h12, hrest⟩ := List.chain'_cons.1 h
      have hnot : ¬ (r + d ≤ r2) := by omega
      show (if r + d ≤ r2 then (r + d) :: fireTimes (r2 :: rs) d else fireTimes (r2 :: rs) d)
          = ((r :: r2 :: rs).getLast?.map (· + d)).toList
      rw [if_neg hnot, List.getLast?_cons_cons]
      exact ih hrest

/-- C7 (amended): `debouncedFetch` deduplicates by dropping, not by
single-flight attachment: a burst of calls inside the debounce window
coalesces into at most one `fetchFunction` invocation — the last call's
— and even that one is skipped entirely (not attached to any pending
result) when it would fire within 5000 ms of the last fetch attempt. -/
theorem debounced_fetch_coalesces (requests : List Nat) (delay lastFetchAttempt : Nat)
    (h : List.Chain' (fun a b => b < a + delay) requests) :
    (debouncedFetchRuns requests delay lastFetchAttempt).length ≤ 1
    ∧ (∀ r, requests.getLast? = some r → r + delay - lastFetchAttempt < 5000 →
        debouncedFetchRuns requests delay lastFetchAttempt = [])
    ∧ (∀ r, requests.getLast? = some r → 5000 ≤ r + delay - lastFetchAttempt →
        debouncedFetchRuns requests delay lastFetchAttempt = [r + delay]) := by
  unfold debouncedFetchRuns
  rw [fireTimes_burst delay requests h]
  rcases hlast : requests.getLast? with _ | r
  · simp [runFires]
  · dsimp only [Option.map, Option.toList]
    refine ⟨?_, ?_, ?_⟩
    · by_cases hlt : r + delay - lastFetchAttempt < 5000 <;> simp [runFires, hlt]
    · intro r' hr' hlt
      obtain rfl : r = r' := by injection hr'
      simp [runFires, hlt]
    · intro r' hr' hge
      obtain rfl : r = r' := by injection hr'
      have hnot : ¬ (r + delay - lastFetchAttempt < 5000) := by omega
      simp [runFires, hnot]

/-- C7 counterexample: a fetch begins at time 0 (10-second timeout still
pending) and a single `debouncedFetch` request arrives at 6000 ms; the
request does not attach to the in-flight call — it fires a second
network call at 7000 ms, inside the first call's lifetime, so two calls
reach the source instead of the claimed one. -/
theorem debounced_fetch_not_single_flight :
    totalSourceCalls 0 [6000] 1000 = 2
    ∧ totalSourceCalls 0 [6000] 1000 ≠ 1
    ∧ ∀ t ∈ debouncedFetchRuns [6000] 1000 0, t < 10000 := by
  refine ⟨rfl, by decide, by decide⟩

/-- Witness for `debounced_fetch_coalesces`: three calls at 0, 500 and
900 ms with a 1000 ms debounce window coalesce, and the surviving timer
(due at 1900 ms, within 5 s of the attempt at 0) is dropped entirely. -/
theorem debounced_fetch_coalesces_witness :
    (debouncedFetchRuns [0, 500, 900] 1000 0).length ≤ 1
    ∧ debouncedFetchRuns [0, 500, 900] 1000 0 = [] :=
  ⟨(debounced_fetch_coalesces [0, 500, 900] 1000 0 (by norm_num [List.chain'_cons])).1,
   (debounced_fetch_coalesces [0, 500, 900] 1000 0
      (by norm_num [List.chain'_cons])).2.1 900 rfl (by decide)⟩

/-- The rank-assignment pass preserves length. -/
theorem rankFrom_length : ∀ (n : Nat) (l : List Site), (rankFrom n l).length = l.length := by
  intro n l
  induction l generalizing n with
  | nil => rfl
  | cons s ss ih => simp [rankFrom, ih]

/-- Element `i` of `rankFrom n l` is element `i` of `l` with its rank
overwritten by `n + i + 1`. -/
theorem rankFrom_get : ∀ (l : List Site) (n i : Nat) (h1 : i < (rankFrom n l).length)
    (h2 : i < l.length),
    (rankFrom n l).get ⟨i, h1⟩ = { l.get ⟨i, h2⟩ with rank := some (n + i + 1) }
  | [], _, i, _, h2 => absurd h2 (Nat.not_lt_zero i)
  | s :: ss, n, 0, _, _ => rfl
  | s :: ss, n, j + 1, h1, h2 => by
    have h2' : j < ss.length := Nat.lt_of_succ_lt_succ h2
    have h1' : j < (rankFrom (n + 1) ss).length := by rw [rankFrom_length]; exact h2'
    have hstep : (rankFrom n (s :: ss)).get ⟨j + 1, h1⟩
        = (rankFrom (n + 1) ss).get ⟨j, h1'⟩ := rfl
    rw [hstep, rankFrom_get ss (n + 1) j h1' h2']
    have harith : n + 1 + j + 1 = n + (j + 1) + 1 := by omega
    rw [harith]
    rfl

/-- The comparator is transitive. -/
theorem siteLe_trans : ∀ a b c : Site, siteLe a b → siteLe b c → siteLe a c := by
  intro a b c hab hbc
  simp only [siteLe, decide_eq_true_eq] at hab hbc ⊢
  omega

/-- The comparator is total. -/
theorem siteLe_total : ∀ a b : Site, siteLe a b || siteLe b a := by
  intro a b
  simp only [siteLe, Bool.or_eq_true, decide_eq_true_eq]
  omega

/-- C8: the ranked list returned by `FirebaseRestClient.getCurrentRanking`
has the same length as its input, carries ranks `1..N` in order
(`rank` of position `i` is `i + 1`), and is sorted non-increasingly by
`players_online` — so rank 1 is a site with the most players online. -/
theorem getCurrentRanking_sorted_and_ranked (l : List Site) :
    (sortAndRank l).length = l.length
    ∧ (∀ i, ∀ hi : i < (sortAndRank l).length,
        ((sortAndRank l).get ⟨i, hi⟩).rank = some (i + 1))
    ∧ (∀ i j, ∀ hi : i < (sortAndRank l).length, ∀ hj : j < (sortAndRank l).length,
        i < j →
        ((sortAndRank l).get ⟨j, hj⟩).players_online
          ≤ ((sortAndRank l).get ⟨i, hi⟩).players_online) := by
  have hlen : (sortAndRank l).length = l.length := by
    unfold sortAndRank
    rw [rankFrom_length, List.length_mergeSort]
  refine ⟨hlen, ?_, ?_⟩
  · intro i hi
    have h2 : i < (l.mergeSort siteLe).length := by
      rw [List.length_mergeSort]
      omega
    show ((rankFrom 0 (l.mergeSort siteLe)).get ⟨i, hi⟩).rank = some (i + 1)
    rw [rankFrom_get (l.mergeSort siteLe) 0 i hi h2]
    simp
  · intro i j hi hj hij
    have h2i : i < (l.mergeSort siteLe).length := by
      rw [List.length_mergeSort]
      omega
    have h2j : j < (l.mergeSort siteLe).length := by
      rw [List.length_mergeSort]
      omega
    have hsorted := List.sorted_mergeSort siteLe_trans siteLe_total l
    have hpair := List.pairwise_iff_getElem.1 hsorted i j h2i h2j hij
    show ((rankFrom 0 (l.mergeSort siteLe)).get ⟨j, hj⟩).players_online
        ≤ ((rankFrom 0 (l.mergeSort siteLe)).get ⟨i, hi⟩).players_online
    rw [rankFrom_get (l.mergeSort siteLe) 0 j hj h2j,
        rankFrom_get (l.mergeSort siteLe) 0 i hi h2i]
    exact of_decide_eq_true hpair

/-- Input for the C8 witness: two sites listed in ascending player
order, so the sort actually reorders them. -/
def rankInputW : List Site :=
  [ { site_name := "A", category := "X", players_online := 10, cash_players := 0,
      peak_24h := 0, seven_day_avg := 0 },
    { site_name := "B", category := "Y", players_online := 20, cash_players := 0,
      peak_24h := 0, seven_day_avg := 0 } ]

/-- Witness for C8 at `rankInputW`: position 0 carries rank 1 and at
least as many players as position 1. -/
theorem getCurrentRanking_sorted_and_ranked_witness :
    ∃ h0 : 0 < (sortAndRank rankInputW).length,
    ∃ h1 : 1 < (sortAndRank rankInputW).length,
      ((sortAndRank rankInputW).get ⟨0, h0⟩).rank = some 1
      ∧ ((sortAndRank rankInputW).get ⟨1, h1⟩).players_online
          ≤ ((sortAndRank rankInputW).get ⟨0, h0⟩).players_online := by
  have hlen := (getCurrentRanking_sorted_and_ranked rankInputW).1
  have h0 : 0 < (sortAndRank rankInputW).length := by rw [hlen]; decide
  have h1 : 1 < (sortAndRank rankInputW).length := by rw [hlen]; decide
  exact ⟨h0, h1, (getCurrentRanking_sorted_and_ranked rankInputW).2.1 0 h0,
    (getCurrentRanking_sorted_and_ranked rankInputW).2.2 0 1 h0 h1 (by decide)⟩

/-- C9: every site produced by the share computation carries defined
share values; the share is `value / total * 100` whenever the respective
total is positive and `0` (not a division-by-zero artifact) whenever the
total is zero. -/
theorem shares_defined_and_guarded (l : List Site) (s : Site) (hs : s ∈ withShares l) :
    (∃ q, s.players_share = some q)
    ∧ (∃ q, s.cash_share = some q)
    ∧ (0 < totalPlayers l →
        s.players_share = some ((s.players_online : ℚ) / (totalPlayers l : ℚ) * 100))
    ∧ (totalPlayers l = 0 → s.players_share = some 0)
    ∧ (0 < totalCashPlayers l →
        s.cash_share = some ((s.cash_players : ℚ) / (totalCashPlayers l : ℚ) * 100))
    ∧ (totalCashPlayers l = 0 → s.cash_share = some 0) := by
  simp only [withShares] at hs
  obtain ⟨a, ha, rfl⟩ := List.mem_map.1 hs
  refine ⟨⟨_, rfl⟩, ⟨_, rfl⟩, ?_, ?_, ?_, ?_⟩
  · intro hpos
    dsimp only
    rw [if_pos hpos]
  · intro hzero
    dsimp only
    rw [if_neg (by omega)]
  · intro hpos
    dsimp only
    rw [if_pos hpos]
  · intro hzero
    dsimp only
    rw [if_neg (by omega)]

/-- Input for the C9 witness: one site, positive player total, zero cash
total, so both guard branches are exercised. -/
def shareInputW : List Site :=
  [ { site_name := "A", category := "X", players_online := 2, cash_players := 0,
      peak_24h := 0, seven_day_avg := 0 } ]

/-- Witness for C9 at `shareInputW`. -/
theorem shares_defined_and_guarded_witness :
    ∃ s, s ∈ withShares shareInputW
      ∧ s.players_share = some ((s.players_online : ℚ) / (totalPlayers shareInputW : ℚ) * 100)
      ∧ s.cash_share = some 0 := by
  have hne : withShares shareInputW ≠ [] := by
    simp [withShares, shareInputW]
  obtain ⟨s, hs⟩ := List.exists_mem_of_ne_nil _ hne
  have h := shares_defined_and_guarded shareInputW s hs
  exact ⟨s, hs, h.2.2.1 (by decide), h.2.2.2.2.2 (by decide)⟩

/-- C10: `getTopSitesByCategory` returns at most `limit` sites; for a
category other than `'ALL'` every returned site carries exactly that
category; for `'ALL'` the result is a prefix of the full ranking; and a
failed underlying fetch yields `[]` rather than an exception. -/
theorem getTopSitesByCategory_spec (fr : Except String (List Site)) (cat : String)
    (lim : Nat) :
    (getTopSitesByCategory fr cat lim).length ≤ lim
    ∧ (cat ≠ "ALL" → ∀ s ∈ getTopSitesByCategory fr cat lim, s.category = cat)
    ∧ (∀ ranking, fr = .ok ranking → cat = "ALL" →
        getTopSitesByCategory fr cat lim <+: ranking)
    ∧ (∀ e, fr = .error e → getTopSitesByCategory fr cat lim = []) := by
  refine ⟨?_, ?_, ?_, ?_⟩
  · cases fr with
    | error e => simp [getTopSitesByCategory]
    | ok allSites =>
      show ((if cat = "ALL" then allSites
        else allSites.filter fun s => s.category = cat).take lim).length ≤ lim
      rw [List.length_take]
      exact Nat.min_le_left _ _
  · intro hcat s hsmem
    cases fr with
    | error e => simp [getTopSitesByCategory] at hsmem
    | ok allSites =>
      rw [show getTopSitesByCategory (.ok allSites) cat lim
          = ((if cat = "ALL" then allSites
              else allSites.filter fun s => s.category = cat).take lim) from rfl,
        if_neg hcat] at hsmem
      have hmem := List.mem_of_mem_take hsmem
      exact of_decide_eq_true (List.mem_filter.1 hmem).2
  · intro ranking hfr hcat
    subst hfr
    subst hcat
    show (if ("ALL" : String) = "ALL" then ranking
      else ranking.filter fun s => s.category = "ALL").take lim <+: ranking
    rw [if_pos rfl]
    exact List.take_prefix lim ranking
  · intro e hfr
    subst hfr
    rfl

/-- Witness for C10: `'ALL'` with limit 1 yields a prefix of the demo
ranking, filtering by `GG_POKER` keeps only that category, and an
erroring fetch yields `[]`. -/
theorem getTopSitesByCategory_spec_witness :
    getTopSitesByCategory (.ok demoData) "ALL" 1 <+: demoData
    ∧ (∀ s ∈ getTopSitesByCategory (.ok demoData) "GG_POKER" 5, s.category = "GG_POKER")
    ∧ getTopSitesByCategory (.error "boom") "ALL" 3 = [] :=
  ⟨(getTopSitesByCategory_spec (.ok demoData) "ALL" 1).2.2.1 demoData rfl rfl,
   (getTopSitesByCategory_spec (.ok demoData) "GG_POKER" 5).2.1 (by decide),
   (getTopSitesByCategory_spec (.error "boom") "ALL" 3).2.2.2 "boom" rfl⟩
